import Mathlib

/-!
Verification of the streaming-renderer and REPL core of `aichat`
(`src/render/stream.rs`, `src/render/mod.rs`, `src/repl/mod.rs`).

Strings are embedded as `List Char`; every function is a direct
translation of the corresponding Rust function.  Concurrency (channels,
timers) is abstracted by passing the sequence of events a receiver
yields during one window; panics and terminal raw-mode are modelled by
an explicit trace of the raw-mode operations a run executes.
-/

namespace Aichat

/-- Strings are modelled as lists of characters. -/
abbrev Str := List Char

/-- White-space test backing Rust's `str::trim`, `char::is_whitespace` and the
regex class `\s` (Unicode `White_Space`), restricted to the control/ASCII
white-space code points; the exotic Unicode white-space code points are not
exercised by any input in this development. -/
def isWS (c : Char) : Bool :=
  c = ' ' || c = '\t' || c = '\n' || c = '\r' || c = '\x0b' || c = '\x0c'

/-- Rust `str::trim`: remove white space from both ends. -/
def trim (s : Str) : Str :=
  ((s.dropWhile isWS).reverse.dropWhile isWS).reverse

/-- Rust `text.contains('\n')` (stream.rs:104, 115). -/
def contains_nl (s : Str) : Bool :=
  s.any (fun c => c == '\n')

/-- Rust `str::rsplit_once('\n')` (stream.rs:201): split at the last newline;
`none` when the string has no newline. -/
def rsplit_once_nl : Str → Option (Str × Str)
  | [] => none
  | c :: rest =>
    match rsplit_once_nl rest with
    | some (h, t) => some (c :: h, t)
    | none => if c = '\n' then some ([], rest) else none

/-- `split_line_tail` (stream.rs:200-206): head is everything before the last
newline, tail the suffix after it; `("", s)` when there is no newline. -/
def split_line_tail (s : Str) : Str × Str :=
  match rsplit_once_nl s with
  | some p => p
  | none => ([], s)

/-- Modelled from the spec: `display_width` of one character, as used by
`textwrap::core::display_width` (an external crate, not part of this
repository): the visible column count — control characters occupy no visible
column, East-Asian wide characters occupy two, everything else one.
ANSI-escape skipping (also performed by the real function) is not modelled;
no claim here exercises it. -/
def char_width (c : Char) : Nat :=
  if c.toNat < 32 || c.toNat = 127 then 0
  else if (0x1100 ≤ c.toNat && c.toNat ≤ 0x115F) || (0x2E80 ≤ c.toNat && c.toNat ≤ 0xA4CF)
      || (0xAC00 ≤ c.toNat && c.toNat ≤ 0xD7A3) || (0xF900 ≤ c.toNat && c.toNat ≤ 0xFAFF)
      || (0xFE30 ≤ c.toNat && c.toNat ≤ 0xFE4F) || (0xFF00 ≤ c.toNat && c.toNat ≤ 0xFF60)
      || (0xFFE0 ≤ c.toNat && c.toNat ≤ 0xFFE6) then 2
  else 1

/-- Modelled from the spec: `textwrap::core::display_width` — the visible
column count of a string (spec §4.3). -/
def display_width (s : Str) : Nat :=
  (s.map char_width).sum

/-- `need_rows` (stream.rs:208-211): `let buffer_width =
display_width(text).max(1) as u16; (buffer_width + columns - 1) / columns`,
computed in `u16`: the `as u16` cast truncates modulo `2^16`; the addition
`buffer_width + columns` wraps modulo `2^16` (release semantics — a debug
build panics at exactly the inputs where that wrap occurs); the `- 1` wraps
likewise and is written here as adding `65535` modulo `2^16`; `u16` division
is `Nat` division.  `columns` is itself a `u16`, so the theorems below assume
`cols < 65536`; `columns = 0` would divide by zero (a Rust panic). -/
def need_rows (s : Str) (cols : Nat) : Nat :=
  ((max (display_width s) 1 % 65536 + cols) % 65536 + 65535) % 65536 / cols

/-- Rust tab hacking (stream.rs:81): `text.replace('\t', "    ")`. -/
def tab_hack (s : Str) : Str :=
  s.foldr (fun c acc => if c = '\t' then ' ' :: ' ' :: ' ' :: ' ' :: acc else c :: acc) []

/-- One `ReplyEvent::Text` application to the renderer buffer
(stream.rs:104-112): if the chunk contains a newline, the concatenation
`buffer ++ t` is split at its last newline, the head is handed to
`render`/`print_block` (returned here as the second component) and the tail
becomes the new buffer; otherwise the chunk is appended to the buffer. -/
def apply_chunk (buffer t : Str) : Str × Option Str :=
  if contains_nl t then
    let text := buffer ++ t
    let p := split_line_tail text
    (p.2, some p.1)
  else (buffer ++ t, none)

/-- The renderer buffer after a sequence of `Text` chunks has been applied
(stream.rs:60, 79-112): `buffer` starts empty, each chunk is tab-expanded
(stream.rs:81) and then applied by the chunk-apply step. -/
def stream_buffer (chunks : List Str) : Str :=
  chunks.foldl (fun buffer t => (apply_chunk buffer (tab_hack t)).1) []

/-- `ReplyEvent` (render/mod.rs, used by stream.rs): a text fragment or the
end-of-stream marker. -/
inductive ReplyEvent
  | Text (v : Str)
  | Done
  deriving DecidableEq

/-- The receive loop inside `gather_events` (stream.rs:162-173): collect text
payloads in arrival order until the first `Done` (which sets the `done` flag
and stops consumption) or until the window's events are exhausted.  The input
list is the sequence of events the receiver yields during one coalescing
window. -/
def gather_loop : List ReplyEvent → List Str × Bool
  | [] => ([], false)
  | ReplyEvent.Text v :: rest =>
    let r := gather_loop rest
    (v :: r.1, r.2)
  | ReplyEvent.Done :: _ => ([], true)

/-- `gather_events` (stream.rs:159-184): the coalesced batch — one `Text`
with the joined fragments when any were received, then `Done` when the
terminator was received.  The 50 ms timer is abstracted: the argument is
exactly the list of events available within the window. -/
def gather_events (evs : List ReplyEvent) : List ReplyEvent :=
  let texts := (gather_loop evs).1
  let done := (gather_loop evs).2
  (if texts.isEmpty then [] else [ReplyEvent.Text texts.flatten]) ++
    (if done then [ReplyEvent.Done] else [])

/-- Whether an event is the `Done` terminator. -/
def is_done : ReplyEvent → Bool
  | ReplyEvent.Done => true
  | ReplyEvent.Text _ => false

/-- The payload of a `Text` event. -/
def text_payload : ReplyEvent → Option Str
  | ReplyEvent.Text v => some v
  | ReplyEvent.Done => none

/-- Specification-side description of the fragments received in one window:
the payloads of the `Text` events preceding the first `Done`, in arrival
order. -/
def window_texts (evs : List ReplyEvent) : List Str :=
  (evs.takeWhile (fun e => !(is_done e))).filterMap text_payload

/-- How a run of `markdown_stream_inner` ends: it returns a `Result`
(`ok = true` for `Ok`, `ok = false` for `Err`; every early `return` inside the
inner loop is a `finished` exit), or it panics / is cancelled mid-await, so
that control unwinds out of `markdown_stream` without reaching the line after
the inner call. -/
inductive InnerExit
  | finished (ok : Bool)
  | panicked
  deriving DecidableEq

/-- A terminal raw-mode operation. -/
inductive RawOp
  | enable
  | disable
  deriving DecidableEq

/-- The raw-mode operations `markdown_stream` (stream.rs:19-32) executes:
`enable_raw_mode()` on entry, then the inner renderer; `disable_raw_mode()`
runs only when the inner call returns a `Result` — there is no scope guard,
so an unwinding exit skips it. -/
def markdown_stream_raw_ops (e : InnerExit) : List RawOp :=
  RawOp.enable ::
    (match e with
     | InnerExit.finished _ => [RawOp.disable]
     | InnerExit.panicked => [])

/-- The terminal's raw-mode flag after a list of raw-mode operations,
starting from cooked mode. -/
def raw_mode_after (ops : List RawOp) : Bool :=
  ops.foldl (fun _ op => match op with | RawOp.enable => true | RawOp.disable => false) false

/-- `reedline::ValidationResult` as used by `ReplValidator`. -/
inductive ValidationResult
  | Complete
  | Incomplete
  deriving DecidableEq

/-- The `:::` multi-line fence. -/
def fence : Str := [':', ':', ':']

/-- `ReplValidator::validate` (repl/mod.rs:401-410): a submission is
`Incomplete` when its trimmed form starts with `:::` and the remainder after
those first three characters does not end with `:::`. -/
def validate_line (line : Str) : ValidationResult :=
  let l := trim line
  if fence.isPrefixOf l && !(fence.isSuffixOf (l.drop 3)) then ValidationResult.Incomplete
  else ValidationResult.Complete

/-- The claim's (and spec §4.9's) incompleteness condition, word for word:
the trimmed form starts with `:::` and does not also end with `:::`. -/
def spec_incomplete (line : Str) : Bool :=
  let l := trim line
  fence.isPrefixOf l && !(fence.isSuffixOf l)

/-- Whether a suffix of the subject matches the regex tail `\s*:::\s*$`:
after maximal white space it carries the closing fence followed only by
white space. -/
def tail_fence_match (r : Str) : Bool :=
  let r2 := r.dropWhile isWS
  fence.isPrefixOf r2 && (r2.drop 3).all isWS

/-- `MULTILINE_RE.captures(line)` group 1 (repl/mod.rs:68), the backtracking
match of `(?s)^\s*:::\s*(.*)\s*:::\s*$`: maximal leading white space, the
opening fence, maximal white space, then the greedy `(.*)` takes the longest
prefix of the remainder whose own remainder still matches `\s*:::\s*$`
(so the `\s*` following the group matches empty and any white space before
the closing fence stays inside the capture). -/
def ml_capture (line : Str) : Option Str :=
  let s1 := line.dropWhile isWS
  if fence.isPrefixOf s1 then
    let s2 := (s1.drop 3).dropWhile isWS
    match (List.range (s2.length + 1)).reverse.find? (fun k => tail_fence_match (s2.drop k)) with
    | some k => some (s2.take k)
    | none => none
  else none

/-- The fence rewrite at the top of `Repl::handle` (repl/mod.rs:132-137):
when the multi-line regex matches, the line is replaced by capture group 1. -/
def ml_rewrite (line : Str) : Str :=
  (ml_capture line).getD line

/-- `parse_command` (repl/mod.rs:431-441) with `COMMAND_RE = ^\s*(\.\S*)\s*`:
after maximal leading white space the line must start with `'.'`; the command
is the dot plus the following non-white-space run, and the argument string is
the trimmed remainder after the white space that follows the command
(`None` when it is empty). -/
def parse_command (line : Str) : Option (Str × Option Str) :=
  match line.dropWhile isWS with
  | [] => none
  | c :: r =>
    if c = '.' then
      let cmd := '.' :: r.takeWhile (fun ch => !(isWS ch))
      let rest := (r.dropWhile (fun ch => !(isWS ch))).dropWhile isWS
      let args := trim rest
      some (cmd, if args.isEmpty then none else some args)
    else none

/-- The first non-white-space character of a line, if any. -/
def first_non_ws (line : Str) : Option Char :=
  (line.dropWhile isWS).head?

/-- Rust `str::split_once` with a character predicate: split at the first
character satisfying it. -/
def split_once_by (p : Char → Bool) : Str → Option (Str × Str)
  | [] => none
  | c :: rest =>
    if p c then some ([], rest)
    else
      match split_once_by p rest with
      | some (a, b) => some (c :: a, b)
      | none => none

/-- Rust `str::split_once` with a string pattern: split at the first
occurrence of the pattern. -/
def split_once_seq (pat : Str) : Str → Option (Str × Str)
  | [] => none
  | c :: rest =>
    if pat.isPrefixOf (c :: rest) then some ([], (c :: rest).drop pat.length)
    else
      match split_once_seq pat rest with
      | some (a, b) => some (c :: a, b)
      | none => none

/-- The effect a dispatched command performs.  The configuration, clipboard
and model calls behind each action (and any errors they themselves raise) are
outside this model; the constructors record which branch of the `match` in
`Repl::handle` ran and with which arguments. -/
inductive HandleAction
  | dumpHelp
  | infoRole
  | infoSession
  | infoSystem
  | usageModel
  | setModel (name : Str)
  | usagePrompt
  | setPrompt (text : Str)
  | usageRole
  | roleAsk (name : Str) (text : Str)
  | setRole (args : Str)
  | startSession (name : Option Str)
  | saveSession (name : Str)
  | usageSave
  | updateSetting (args : Str)
  | usageSet
  | copyLast
  | fileAsk (files : Str) (text : Str)
  | usageFile
  | clearRole
  | endSession
  | clearMessages
  | userTurn (line : Str)
  deriving DecidableEq

/-- Outcome of `Repl::handle`: an action then `Ok(false)`, the `Ok(true)`
REPL-exit of a bare `.exit`, or the `unknown_command()` error
(repl/mod.rs:412-414). -/
inductive HandleOutcome
  | run (a : HandleAction)
  | exitRepl
  | errUnknown
  deriving DecidableEq

/-- The command `match` of `Repl::handle` (repl/mod.rs:139-243), branch by
branch. -/
def handle_dispatch (cmd : Str) (args : Option Str) : HandleOutcome :=
  if cmd = ".help".toList then HandleOutcome.run HandleAction.dumpHelp
  else if cmd = ".info".toList then
    match args with
    | some a =>
      if a = "role".toList then HandleOutcome.run HandleAction.infoRole
      else if a = "session".toList then HandleOutcome.run HandleAction.infoSession
      else HandleOutcome.errUnknown
    | none => HandleOutcome.run HandleAction.infoSystem
  else if cmd = ".model".toList then
    match args with
    | some name => HandleOutcome.run (HandleAction.setModel name)
    | none => HandleOutcome.run HandleAction.usageModel
  else if cmd = ".prompt".toList then
    match args with
    | some text => HandleOutcome.run (HandleAction.setPrompt text)
    | none => HandleOutcome.run HandleAction.usagePrompt
  else if cmd = ".role".toList then
    match args with
    | some a =>
      match split_once_by (fun c => c = '\n' || c = ' ') a with
      | some (name, text) => HandleOutcome.run (HandleAction.roleAsk (trim name) (trim text))
      | none => HandleOutcome.run (HandleAction.setRole a)
    | none => HandleOutcome.run HandleAction.usageRole
  else if cmd = ".session".toList then HandleOutcome.run (HandleAction.startSession args)
  else if cmd = ".save".toList then
    match args.map (fun v =>
        match split_once_by (fun c => c = ' ') v with
        | some (subcmd, rest) => (subcmd, trim rest)
        | none => (v, ([] : Str))) with
    | some (subcmd, name) =>
      if subcmd = "session".toList then HandleOutcome.run (HandleAction.saveSession name)
      else HandleOutcome.run HandleAction.usageSave
    | none => HandleOutcome.run HandleAction.usageSave
  else if cmd = ".set".toList then
    match args with
    | some a => HandleOutcome.run (HandleAction.updateSetting a)
    | none => HandleOutcome.run HandleAction.usageSet
  else if cmd = ".copy".toList then HandleOutcome.run HandleAction.copyLast
  else if cmd = ".file".toList then
    match args with
    | some a =>
      match split_once_seq " -- ".toList a with
      | some (files, text) => HandleOutcome.run (HandleAction.fileAsk (trim files) (trim text))
      | none => HandleOutcome.run (HandleAction.fileAsk a [])
    | none => HandleOutcome.run HandleAction.usageFile
  else if cmd = ".exit".toList then
    match args with
    | some a =>
      if a = "role".toList then HandleOutcome.run HandleAction.clearRole
      else if a = "session".toList then HandleOutcome.run HandleAction.endSession
      else HandleOutcome.errUnknown
    | none => HandleOutcome.exitRepl
  else if cmd = ".clear".toList then
    match args with
    | some a =>
      if a = "messages".toList then HandleOutcome.run HandleAction.clearMessages
      else HandleOutcome.errUnknown
    | none => HandleOutcome.errUnknown
  else HandleOutcome.errUnknown

/-- The command-or-user-turn split of `Repl::handle` (repl/mod.rs:138, 245-248)
applied to a line the fence rewrite has already processed. -/
def handle_parsed (line : Str) : HandleOutcome :=
  match parse_command line with
  | some (cmd, args) => handle_dispatch cmd args
  | none => HandleOutcome.run (HandleAction.userTurn line)

/-- `Repl::handle` (repl/mod.rs:132-254): fence rewrite, then dispatch. -/
def handle_line (line : Str) : HandleOutcome :=
  handle_parsed (ml_rewrite line)

/-- The command names that have a dedicated arm in the `match` of
`Repl::handle`; any other parsed command falls to `unknown_command()`. -/
def arm_names : List Str :=
  [".help".toList, ".info".toList, ".model".toList, ".prompt".toList, ".role".toList,
   ".session".toList, ".save".toList, ".set".toList, ".copy".toList, ".file".toList,
   ".exit".toList, ".clear".toList]

/-- What the body of `Repl::run`'s loop does after `handle` returns
(repl/mod.rs:105-115). -/
inductive LoopNext
  | broke
  | continued
  deriving DecidableEq

/-- The `Result` value `handle` produces for a given outcome. -/
def outcome_result : HandleOutcome → Except Unit Bool
  | HandleOutcome.run _ => Except.ok false
  | HandleOutcome.exitRepl => Except.ok true
  | HandleOutcome.errUnknown => Except.error ()

/-- One iteration tail of the REPL loop (repl/mod.rs:105-115): `Ok(true)`
breaks, `Ok(false)` continues, `Err` renders the error (second component)
and continues. -/
def run_step (r : Except Unit Bool) : LoopNext × Bool :=
  match r with
  | Except.ok true => (LoopNext.broke, false)
  | Except.ok false => (LoopNext.continued, false)
  | Except.error _ => (LoopNext.continued, true)

/-! ## Helper lemmas about `rsplit_once_nl` and `split_line_tail` -/

theorem rsplit_once_nl_eq_none {s : Str} : rsplit_once_nl s = none ↔ '\n' ∉ s := by
  induction s with
  | nil => simp [rsplit_once_nl]
  | cons c rest ih =>
    rw [rsplit_once_nl]
    cases hr : rsplit_once_nl rest with
    | some p =>
      simp only [hr]
      constructor
      · intro h; exact absurd h (by simp)
      · intro h
        exfalso
        have : '\n' ∈ rest := by
          by_contra hn
          rw [← ih] at hn
          simp [hn] at hr
        simp [this] at h
    | none =>
      simp only [hr]
      have hrest : '\n' ∉ rest := ih.mp hr
      by_cases hc : c = '\n'
      · simp [hc]
      · simp only [hc, if_false]
        constructor
        · intro _ hmem
          rcases List.mem_cons.mp hmem with h | h
          · exact hc h.symm
          · exact hrest h
        · intro _
          trivial

theorem rsplit_tail_no_nl {s h t : Str} (he : rsplit_once_nl s = some (h, t)) :
    '\n' ∉ t := by
  induction s generalizing h t with
  | nil => simp [rsplit_once_nl] at he
  | cons c rest ih =>
    rw [rsplit_once_nl] at he
    cases hr : rsplit_once_nl rest with
    | some p =>
      rw [hr] at he
      cases p with
      | mk ph pt =>
        simp at he
        obtain ⟨h1, h2⟩ := he
        exact h2 ▸ ih hr
    | none =>
      rw [hr] at he
      by_cases hc : c = '\n'
      · simp [hc] at he
        obtain ⟨h1, h2⟩ := he
        exact h2 ▸ rsplit_once_nl_eq_none.mp hr
      · simp [hc] at he

theorem rsplit_append_some {b h t : Str} (a : Str)
    (hb : rsplit_once_nl b = some (h, t)) :
    rsplit_once_nl (a ++ b) = some (a ++ h, t) := by
  induction a with
  | nil => simpa using hb
  | cons c a ih =>
    rw [List.cons_append, rsplit_once_nl, ih]
    rfl

theorem rsplit_append_none {b : Str} (a : Str)
    (hb : rsplit_once_nl b = none) :
    rsplit_once_nl (a ++ b) =
      match rsplit_once_nl a with
      | some (h, t) => some (h, t ++ b)
      | none => none := by
  induction a with
  | nil => simpa using hb
  | cons c a ih =>
    rw [List.cons_append, rsplit_once_nl, ih, rsplit_once_nl]
    cases ha : rsplit_once_nl a with
    | some p =>
      cases p with
      | mk ph pt => simp
    | none =>
      by_cases hc : c = '\n' <;> simp [hc]

theorem split_line_tail_snd_no_nl (s : Str) : '\n' ∉ (split_line_tail s).2 := by
  cases h : rsplit_once_nl s with
  | some p =>
    cases p with
    | mk a b =>
      simp only [split_line_tail, h]
      exact rsplit_tail_no_nl h
  | none =>
    simp only [split_line_tail, h]
    exact rsplit_once_nl_eq_none.mp h

theorem contains_nl_iff {s : Str} : contains_nl s = true ↔ '\n' ∈ s := by
  simp [contains_nl, List.any_eq_true, beq_iff_eq]

theorem apply_chunk_fst (j t : Str) :
    (apply_chunk (split_line_tail j).2 t).1 = (split_line_tail (j ++ t)).2 := by
  unfold apply_chunk
  by_cases hc : contains_nl t = true
  · rw [if_pos hc]
    obtain ⟨h0, t0, hr⟩ : ∃ h0 t0, rsplit_once_nl t = some (h0, t0) := by
      cases hrt : rsplit_once_nl t with
      | some p =>
        cases p with
        | mk a b => exact ⟨a, b, rfl⟩
      | none =>
        exact absurd (contains_nl_iff.mp hc) (rsplit_once_nl_eq_none.mp hrt)
    have e1 : split_line_tail ((split_line_tail j).2 ++ t) = ((split_line_tail j).2 ++ h0, t0) := by
      simp only [split_line_tail, rsplit_append_some _ hr]
    have e2 : split_line_tail (j ++ t) = (j ++ h0, t0) := by
      simp only [split_line_tail, rsplit_append_some _ hr]
    simp [e1, e2]
  · rw [if_neg hc]
    have hnone : rsplit_once_nl t = none := by
      rw [rsplit_once_nl_eq_none]
      intro hmem
      exact hc (contains_nl_iff.mpr hmem)
    have happ := rsplit_append_none j hnone
    cases hj : rsplit_once_nl j with
    | some p =>
      cases p with
      | mk a b =>
        rw [hj] at happ
        simp only [split_line_tail, happ, hj]
    | none =>
      rw [hj] at happ
      simp only [split_line_tail, happ, hj]

theorem stream_fold (cs : List Str) :
    ∀ j : Str,
      cs.foldl (fun buffer t => (apply_chunk buffer (tab_hack t)).1) (split_line_tail j).2 =
        (split_line_tail (j ++ (cs.map tab_hack).flatten)).2 := by
  induction cs with
  | nil => intro j; simp
  | cons c cs ih =>
    intro j
    rw [List.foldl_cons, apply_chunk_fst j (tab_hack c), ih (j ++ tab_hack c)]
    simp [List.append_assoc]

/-! ## Claim theorems -/

/-- Claim C1 (confirmed): after any sequence of `Text` chunk applications, the
renderer's `buffer` equals the suffix, after the last newline, of all text
received so far (tab-expanded, as every chunk is before it is applied), and
consequently the buffer never contains a newline.  Each step is exactly the
chunk-apply of stream.rs:104-112: a chunk with a newline splits
`buffer ++ t` at the last newline, hands the head to `render`, and keeps the
tail; any other chunk is appended. -/
theorem stream_buffer_tail_invariant (chunks : List Str) :
    stream_buffer chunks = (split_line_tail ((chunks.map tab_hack).flatten)).2 ∧
    '\n' ∉ stream_buffer chunks := by
  have hmain : stream_buffer chunks = (split_line_tail ((chunks.map tab_hack).flatten)).2 := by
    unfold stream_buffer
    have h := stream_fold chunks []
    simpa using h
  exact ⟨hmain, hmain ▸ split_line_tail_snd_no_nl _⟩

/-- Claim C6 (confirmed): `split_line_tail (head ++ "\n" ++ tl) = (head, tl)`
whenever `tl` has no newline, and `split_line_tail s = ("", s)` whenever `s`
has no newline (stream.rs:200-206). -/
theorem split_line_tail_append_spec (head tl s : Str)
    (h1 : '\n' ∉ tl) (h2 : '\n' ∉ s) :
    split_line_tail (head ++ '\n' :: tl) = (head, tl) ∧ split_line_tail s = ([], s) := by
  constructor
  · have hb : rsplit_once_nl ('\n' :: tl) = some ([], tl) := by
      rw [rsplit_once_nl, rsplit_once_nl_eq_none.mpr h1]
      simp
    have := rsplit_append_some head hb
    simp [split_line_tail, this]
  · simp [split_line_tail, rsplit_once_nl_eq_none.mpr h2]

/-- Witness for C6 at concrete inputs. -/
theorem split_line_tail_append_spec_witness :
    split_line_tail ("ab".toList ++ '\n' :: "cd".toList) = ("ab".toList, "cd".toList) ∧
    split_line_tail "xy".toList = ([], "xy".toList) :=
  split_line_tail_append_spec "ab".toList "cd".toList "xy".toList (by decide) (by decide)

theorem gather_loop_eq (evs : List ReplyEvent) :
    gather_loop evs = (window_texts evs, evs.any is_done) := by
  induction evs with
  | nil => simp [gather_loop, window_texts]
  | cons e rest ih =>
    cases e with
    | Text v => simp [gather_loop, window_texts, is_done, text_payload, ih]
    | Done => simp [gather_loop, window_texts, is_done]

/-- Claim C2 (confirmed): the batch `gather_events` returns for one coalescing
window holds at most two events — an optional `Text` whose payload is the
concatenation, in arrival order, of all fragments received in the window,
followed by an optional `Done` which is always last — and it is empty when
nothing was received (stream.rs:159-184). -/
theorem gather_events_batch_shape (evs : List ReplyEvent) :
    (gather_events evs).length ≤ 2 ∧
    gather_events evs =
      (if window_texts evs = [] then [] else [ReplyEvent.Text (window_texts evs).flatten]) ++
      (if evs.any is_done = true then [ReplyEvent.Done] else []) := by
  constructor
  · unfold gather_events
    rw [gather_loop_eq]
    dsimp only
    split_ifs <;> simp
  · unfold gather_events
    rw [gather_loop_eq]
    dsimp only
    simp [List.isEmpty_iff]

/-- Claim C3 counterexample: on the lone fence `":::"` the validator returns
`Incomplete` (the code checks the closing fence only in `line[3..]`), while
the claim's condition — trimmed form starts with `:::` and does not also end
with `:::` — is false there, so the claimed equivalence fails. -/
theorem validator_lone_fence_cex :
    ¬ (validate_line fence = ValidationResult.Incomplete ↔ spec_incomplete fence = true) := by
  decide

/-- Claim C3 (corrected): a submission is judged incomplete iff its trimmed
form starts with `:::` and the remainder after those first three characters
does not end with `:::` — so a lone `:::` is incomplete (repl/mod.rs:401-410). -/
theorem validate_line_incomplete_iff (line : Str) :
    validate_line line = ValidationResult.Incomplete ↔
      (fence <+: trim line ∧ ¬ fence <:+ (trim line).drop 3) := by
  have hPp : fence <+: trim line ↔ fence.isPrefixOf (trim line) = true :=
    (List.isPrefixOf_iff_prefix).symm
  have hSp : fence <:+ (trim line).drop 3 ↔ fence.isSuffixOf ((trim line).drop 3) = true :=
    (List.isSuffixOf_iff_suffix).symm
  have hrfl : validate_line line =
      (if fence.isPrefixOf (trim line) && !(fence.isSuffixOf ((trim line).drop 3))
       then ValidationResult.Incomplete else ValidationResult.Complete) := rfl
  rw [hrfl]
  cases hp : fence.isPrefixOf (trim line) with
  | false => simp [hPp, hp]
  | true =>
    cases hs : fence.isSuffixOf ((trim line).drop 3) with
    | false => simp [hPp, hSp, hp, hs]
    | true => simp [hPp, hSp, hp, hs]

/-- Claim C4 counterexample: the fence rewrite does not map
`":::\nhello\nworld\n:::"` to `"hello\nworld"` — the greedy `(.*)` of
`MULTILINE_RE` keeps the newline before the closing fence inside the
capture (repl/mod.rs:68, 132-137). -/
theorem ml_rewrite_fence_cex :
    ¬ (ml_rewrite ":::\nhello\nworld\n:::".toList = "hello\nworld".toList) := by
  decide

/-- Claim C4 (corrected): the submission `":::\nhello\nworld\n:::"` is
rewritten to `"hello\nworld\n"` — the outer fences, the white space right
after the opening fence and any white space after the closing fence are
stripped, but white space between the inner text and the closing fence stays
in the capture — and that captured text is what gets dispatched (as a user
turn, since it starts with no dot). -/
theorem ml_rewrite_fence_amended :
    ml_rewrite ":::\nhello\nworld\n:::".toList = "hello\nworld\n".toList ∧
    handle_line ":::\nhello\nworld\n:::".toList =
      HandleOutcome.run (HandleAction.userTurn "hello\nworld\n".toList) := by
  decide

/-- Claim C5 counterexample: for the non-empty string `"\x00"` (display width
0, as for any control character or bare ANSI escape) `need_rows` returns 1,
not `⌈display_width/cols⌉ = 0`. -/
theorem need_rows_zero_width_cex :
    ¬ (need_rows ['\x00'] 10 = (display_width ['\x00'] + 10 - 1) / 10) := by
  decide

theorem display_width_replicate (n : Nat) : display_width (List.replicate n 'a') = n := by
  induction n with
  | zero => rfl
  | succ n ih =>
    have hstep : display_width (List.replicate (n + 1) 'a')
        = char_width 'a' + display_width (List.replicate n 'a') := by
      simp [display_width, List.replicate_succ]
    have hca : char_width 'a' = 1 := rfl
    rw [hstep, ih, hca]
    omega

/-- The `u16` wrap the truncated cast introduces: a line of display width
exactly `2^16` makes `buffer_width = 0`, so `need_rows` returns 0 rows. -/
theorem need_rows_wrap_zero (cols : Nat) (hc : 0 < cols) (hcols : cols < 65536) :
    need_rows (List.replicate 65536 'a') cols = 0 := by
  unfold need_rows
  rw [display_width_replicate]
  have h1 : max 65536 1 % 65536 = 0 := by norm_num
  rw [h1]
  have h2 : (0 + cols) % 65536 = cols := by omega
  rw [h2]
  have h3 : (cols + 65535) % 65536 = cols - 1 := by
    have he : cols + 65535 = 65536 + (cols - 1) := by omega
    rw [he, Nat.add_mod_left]
    exact Nat.mod_eq_of_lt (by omega)
  rw [h3]
  exact Nat.div_eq_of_lt (by omega)

/-- Claim C5 (corrected): for every string `s` and `u16` column count
`0 < cols < 2^16`, whenever the `u16` computation stays in range
(`max(display_width s, 1) + cols - 1 < 2^16`), `need_rows s cols ≥ 1`; and
whenever additionally the display width is itself at least 1 (rather than
merely the string being non-empty), `need_rows` equals
`⌈display_width/cols⌉` (stream.rs:208-211).  Outside that range the wrapping
`as u16` cast and `u16` addition can yield 0 rows (`need_rows_wrap_zero`),
and a zero-width non-empty string yields 1, not 0 (the counterexample). -/
theorem need_rows_spec (s : Str) (cols : Nat) (hc : 0 < cols) (hcols : cols < 65536)
    (hbound : max (display_width s) 1 + cols - 1 < 65536) :
    1 ≤ need_rows s cols ∧
    (1 ≤ display_width s → need_rows s cols = (display_width s + cols - 1) / cols) := by
  have hm1 : 1 ≤ max (display_width s) 1 := Nat.le_max_right _ 1
  have hmw : max (display_width s) 1 < 65536 := by omega
  have hbw : max (display_width s) 1 % 65536 = max (display_width s) 1 :=
    Nat.mod_eq_of_lt hmw
  unfold need_rows
  rw [hbw]
  by_cases hcase : max (display_width s) 1 + cols = 65536
  · rw [hcase]
    have h0 : (65536 : Nat) % 65536 = 0 := by norm_num
    rw [h0]
    have h65535 : ((0 : Nat) + 65535) % 65536 = 65535 := by norm_num
    rw [h65535]
    constructor
    · rw [Nat.le_div_iff_mul_le hc]
      omega
    · intro hw1
      have hmax : max (display_width s) 1 = display_width s := Nat.max_eq_left hw1
      have hwe : display_width s + cols - 1 = 65535 := by omega
      rw [hwe]
  · have hlt : max (display_width s) 1 + cols < 65536 := by omega
    rw [Nat.mod_eq_of_lt hlt]
    have ht2 : (max (display_width s) 1 + cols + 65535) % 65536
        = max (display_width s) 1 + cols - 1 := by
      have he : max (display_width s) 1 + cols + 65535
          = 65536 + (max (display_width s) 1 + cols - 1) := by omega
      rw [he, Nat.add_mod_left]
      exact Nat.mod_eq_of_lt (by omega)
    rw [ht2]
    constructor
    · rw [Nat.le_div_iff_mul_le hc]
      omega
    · intro hw1
      rw [Nat.max_eq_left hw1]

/-- Witness for C5 at a concrete input. -/
theorem need_rows_spec_witness :
    (0 < 2 ∧ 2 < 65536 ∧ max (display_width ['a']) 1 + 2 - 1 < 65536 ∧
      1 ≤ display_width ['a']) ∧
    1 ≤ need_rows ['a'] 2 ∧ need_rows ['a'] 2 = (display_width ['a'] + 2 - 1) / 2 :=
  ⟨⟨by decide, by decide, by decide, by decide⟩,
    (need_rows_spec ['a'] 2 (by decide) (by decide) (by decide)).1,
    (need_rows_spec ['a'] 2 (by decide) (by decide) (by decide)).2 (by decide)⟩

/-- Claim C7 (confirmed): the three specified `parse_command` evaluations
(repl/mod.rs:431-441, mirrored by the source's own unit test). -/
theorem parse_command_examples :
    parse_command " .set dry_run true  ".toList = some (".set".toList, some ("dry_run true".toList)) ∧
    parse_command " .role".toList = some (".role".toList, none) ∧
    parse_command ".prompt \nabc\n".toList = some (".prompt".toList, some ("abc".toList)) := by
  decide

/-- Claim C8 counterexample: when the inner renderer exits by unwinding
(a panic), `markdown_stream` never reaches its `disable_raw_mode()` line, so
raw mode stays enabled — the claimed every-exit-path guarantee fails
(stream.rs:19-32 has no scope guard). -/
theorem raw_mode_panic_cex :
    ¬ (raw_mode_after (markdown_stream_raw_ops InnerExit.panicked) = false) := by
  decide

/-- Claim C8 (corrected): `markdown_stream` enables raw mode on entry, and
disables it on every exit path on which the inner renderer returns a
`Result` — normal completion, early returns and error returns alike — before
propagating that result; only an unwinding exit (panic) escapes without the
disable. -/
theorem markdown_stream_raw_mode_scoped :
    (∀ e : InnerExit, (markdown_stream_raw_ops e).head? = some RawOp.enable) ∧
    (∀ ok : Bool, raw_mode_after (markdown_stream_raw_ops (InnerExit.finished ok)) = false) := by
  constructor
  · intro e
    cases e <;> rfl
  · intro ok
    rfl

/-- Claim C9 counterexample: `.model` without an argument parses as a command
whose (required) argument is missing — its arguments match no accepted form —
yet `handle` prints a usage line and returns `Ok(false)` (repl/mod.rs:162):
no error is returned and the REPL loop's error branch is not taken, refuting
the claim's universal "handle returns an error" over argument-mismatched
commands. -/
theorem usage_line_not_error_cex :
    handle_line ".model".toList = HandleOutcome.run HandleAction.usageModel ∧
    ¬ (handle_line ".model".toList = HandleOutcome.errUnknown) ∧
    run_step (outcome_result (handle_line ".model".toList)) = (LoopNext.continued, false) := by
  decide

/-- Claim C9 (corrected): a submission that parses as a command whose name has
no arm in the dispatch `match` errors with `unknown_command()`, as do the
argument mismatches inside the `.info`, `.exit` and `.clear` arms
(`.info xyz`, `.exit xyz`, `.clear` alone, `.clear xyz`); the other
argument-mismatched forms — `.model`, `.prompt`, `.role`, `.set`, `.file`
without their required argument and `.save` with a subcommand other than
`session` — print a `Usage:` line and return `Ok` instead of an error.  When
an error is returned, the REPL outer loop renders it and continues iterating
rather than exiting (repl/mod.rs:105-115, 139-243, 412-414). -/
theorem unknown_command_errors_and_usage (line cmd : Str) (args : Option Str)
    (hp : parse_command (ml_rewrite line) = some (cmd, args))
    (hcmd : cmd ∉ arm_names) :
    handle_line line = HandleOutcome.errUnknown ∧
    run_step (outcome_result (handle_line line)) = (LoopNext.continued, true) ∧
    handle_dispatch ".info".toList (some "xyz".toList) = HandleOutcome.errUnknown ∧
    handle_dispatch ".exit".toList (some "xyz".toList) = HandleOutcome.errUnknown ∧
    handle_dispatch ".clear".toList none = HandleOutcome.errUnknown ∧
    handle_dispatch ".clear".toList (some "xyz".toList) = HandleOutcome.errUnknown ∧
    handle_dispatch ".model".toList none = HandleOutcome.run HandleAction.usageModel ∧
    handle_dispatch ".prompt".toList none = HandleOutcome.run HandleAction.usagePrompt ∧
    handle_dispatch ".role".toList none = HandleOutcome.run HandleAction.usageRole ∧
    handle_dispatch ".save".toList (some "xyz".toList) = HandleOutcome.run HandleAction.usageSave ∧
    handle_dispatch ".set".toList none = HandleOutcome.run HandleAction.usageSet ∧
    handle_dispatch ".file".toList none = HandleOutcome.run HandleAction.usageFile := by
  have herr : handle_line line = HandleOutcome.errUnknown := by
    have hhp : handle_line line = handle_dispatch cmd args := by
      unfold handle_line handle_parsed
      rw [hp]
    rw [hhp]
    simp only [arm_names, List.mem_cons, List.mem_singleton, not_or] at hcmd
    obtain ⟨h1, h2, h3, h4, h5, h6, h7, h8, h9, h10, h11, h12, -⟩ := hcmd
    unfold handle_dispatch
    rw [if_neg h1, if_neg h2, if_neg h3, if_neg h4, if_neg h5, if_neg h6, if_neg h7, if_neg h8,
      if_neg h9, if_neg h10, if_neg h11, if_neg h12]
  exact ⟨herr, by rw [herr]; rfl, by decide, by decide, by decide, by decide, by decide,
    by decide, by decide, by decide, by decide, by decide⟩

/-- Witness for C9: the unknown command `.foo`. -/
theorem unknown_command_errors_and_usage_witness :
    (parse_command (ml_rewrite ".foo".toList) = some (".foo".toList, none) ∧
      ".foo".toList ∉ arm_names) ∧
    handle_line ".foo".toList = HandleOutcome.errUnknown :=
  ⟨⟨by decide, by decide⟩,
    (unknown_command_errors_and_usage ".foo".toList ".foo".toList none
      (by decide) (by decide)).1⟩

/-- Claim C10 (confirmed): `parse_command` returns `some` exactly when the
first non-white-space character of the line is `'.'`; a lone `"."` parses as
the command `"."` with no arguments (and is then dispatched as an unknown
command), while a line whose first non-white-space character is not `'.'`
reaches the `None` branch of `Repl::handle` and becomes a user turn
(repl/mod.rs:245-248, 431-441). -/
theorem parse_command_dot_gate (line : Str) :
    ((parse_command line).isSome = true ↔ first_non_ws line = some '.') ∧
    parse_command ['.'] = some (['.'], none) ∧
    handle_parsed ['.'] = HandleOutcome.errUnknown ∧
    (first_non_ws line ≠ some '.' →
      handle_parsed line = HandleOutcome.run (HandleAction.userTurn line)) := by
  have hiff : (parse_command line).isSome = true ↔ first_non_ws line = some '.' := by
    unfold parse_command first_non_ws
    cases h : line.dropWhile isWS with
    | nil => simp
    | cons c r =>
      by_cases hc : c = '.'
      · simp [hc]
      · simp [hc]
  refine ⟨hiff, by decide, by decide, ?_⟩
  intro hne
  have hnone : parse_command line = none := by
    cases hps : parse_command line with
    | none => rfl
    | some p =>
      exfalso
      apply hne
      apply hiff.mp
      rw [hps]
      rfl
  unfold handle_parsed
  rw [hnone]

/-- Witness for C10: a line starting with a non-dot character. -/
theorem parse_command_dot_gate_witness :
    first_non_ws ['x'] ≠ some '.' ∧
    handle_parsed ['x'] = HandleOutcome.run (HandleAction.userTurn ['x']) :=
  ⟨by decide, (parse_command_dot_gate ['x']).2.2.2 (by decide)⟩

end Aichat
